import Mathlib

/-!
Verification of the stargz-registry core: remote range reader and concurrent lookup CLI.

Shallow embedding of the two source files:

* `remote` package (`src/unnamed/part_000`): `redirect`, `Remote.Layers`,
  `Layer.ReadAt`, `Layer.fetch`.
* `cmd/ecrane/main.go`: `run`, the concurrent per-layer lookup fan-out with an
  errgroup and a `sync.Map`, followed by the topmost-to-bottommost print loop.

HTTP is modelled by pure request/response values; the authenticated transport
(`http.RoundTripper` / `client.Do`) is modelled as a function `Request → Response`
passed explicitly where the Go code reads `l.rt` / `tr`.  Bytes are `Nat`s,
Go `int64` offsets/sizes are `Int`, buffer lengths are `Nat`.
-/

namespace StargzRegistry

deriving instance DecidableEq for Except

/-- An outbound HTTP request, as the code builds it (`http.NewRequestWithContext`
plus `Header.Add`/`Header.Set`).  Headers are ordered key/value pairs. -/
structure Request where
  method : String
  url : String
  headers : List (String × String)
  deriving DecidableEq, Repr

/-- An HTTP response: status code, headers and the full body the reader could
drain from `res.Body`. -/
structure Response where
  statusCode : Nat
  headers : List (String × String)
  body : List Nat
  deriving DecidableEq, Repr

/-- Go `http.Header.Get`: first value stored under the key, `""` when absent. -/
def headerGet (hs : List (String × String)) (k : String) : String :=
  match hs.find? (fun p => p.1 = k) with
  | some p => p.2
  | none => ""

/-- The transport: models `http.RoundTripper.RoundTrip` / `(&http.Client{Transport: rt}).Do`.
Go network-level failures (`err != nil` from `Do`/`RoundTrip`) are not modelled:
every request gets a response. -/
def Transport : Type := Request → Response

/-! ## mime.ParseMediaType (Go standard library, consumed by `Layer.fetch`)

Modelled from Go's `mime.ParseMediaType`: the value before the first `;` is
trimmed and lowercased and must be a token or `token/token` (RFC 1521 tokens);
otherwise the call errors.  Parameter parsing after the `;` (which can also
fail in Go) is not modelled; the theorems below only ever constrain the
media-type component.  String functions are implemented by structural
recursion on the character list (in header values the characters that matter
are ASCII). -/

/-- Go `strings.HasPrefix`, on character lists. -/
def hasPrefixChars : List Char → List Char → Bool
  | _, [] => true
  | [], _ :: _ => false
  | c :: cs, p :: ps => c = p && hasPrefixChars cs ps

/-- Go `strings.HasPrefix`. -/
def strHasPrefix (s pre : String) : Bool :=
  hasPrefixChars s.data pre.data

/-- Whitespace trimmed by `strings.TrimSpace` (ASCII range). -/
def isSpaceChar (c : Char) : Bool :=
  c == ' ' || c == '\t' || c == '\n' || c == '\r'

/-- The portion of the header value before the first `;` (the media type,
parameters follow the `;`). -/
def takeBeforeSemicolon : List Char → List Char
  | [] => []
  | c :: rest => if c = ';' then [] else c :: takeBeforeSemicolon rest

/-- Go `strings.TrimSpace` on a character list. -/
def trimChars (l : List Char) : List Char :=
  ((l.dropWhile isSpaceChar).reverse.dropWhile isSpaceChar).reverse

/-- Go `strings.ToLower` on one ASCII character. -/
def toLowerChar (c : Char) : Char :=
  if 'A' ≤ c && c ≤ 'Z' then Char.ofNat (c.toNat + 32) else c

/-- RFC 1521 `tspecials`, as listed in Go `mime.isTSpecial`. -/
def tspecials : List Char :=
  ['(', ')', '<', '>', '@', ',', ';', ':', '\\', '\"', '/', '[', ']', '?', '=']

/-- Go `mime.isTokenChar`: printable US-ASCII other than space and tspecials. -/
def isTokenChar (c : Char) : Bool :=
  0x20 < c.toNat && c.toNat < 0x7f && !(tspecials.contains c)

/-- A non-empty run of token characters. -/
def isTokenChars (l : List Char) : Bool :=
  !l.isEmpty && l.all isTokenChar

/-- Split a character list at every `/`. -/
def splitOnSlashAux : List Char → List Char → List (List Char)
  | [], acc => [acc.reverse]
  | c :: rest, acc =>
    if c = '/' then acc.reverse :: splitOnSlashAux rest []
    else splitOnSlashAux rest (c :: acc)

/-- Split a character list at every `/`. -/
def splitOnSlash (l : List Char) : List (List Char) :=
  splitOnSlashAux l []

/-- Go `mime.checkMediaTypeDisposition`: `token` or `token/token`. -/
def checkMediaTypeDisposition (l : List Char) : Bool :=
  match splitOnSlash l with
  | [t] => isTokenChars t
  | [t, sub] => isTokenChars t && isTokenChars sub
  | _ => false

/-- Go `mime.ParseMediaType`, restricted to the returned media type.
Returns the trimmed, lowercased media type before any `;`, or an error when it
is not a valid media type (in particular when the header value is empty). -/
def parseMediaType (v : String) : Except String String :=
  let base := (trimChars (takeBeforeSemicolon v.data)).map toLowerChar
  if checkMediaTypeDisposition base then .ok (String.mk base)
  else .error "mime: no media type"

/-! ## The `remote` package -/

/-- Error values produced by `Layer.fetch` (`fmt.Errorf` calls in the source). -/
inductive FetchError where
  /-- `invalid media type %q: %w` — `mime.ParseMediaType` failed. -/
  | invalidMediaType (contentType : String)
  /-- `multipart not supported`. -/
  | multipartNotSupported
  /-- `unexpected status code: %v`. -/
  | unexpectedStatus (code : Nat)
  deriving DecidableEq, Repr

/-- Error values produced by `redirect`:
`failed to access to the registry with code %v`. -/
inductive RedirectError where
  | statusError (code : Nat)
  deriving DecidableEq, Repr

/-- The `Layer` struct: digest, resolved URL, canonical blob URL and declared
size.  The `rt http.RoundTripper` field is passed explicitly to `fetch`/`ReadAt`
as a `Transport` argument. -/
structure Layer where
  digest : String
  url : String
  blobURL : String
  size : Int
  deriving DecidableEq, Repr

/-- The request built by `Layer.fetch`: a GET on `l.url` with
`Range: bytes=<begin>-<end>` and `Accept-Encoding: identity`. -/
def mkFetchRequest (url : String) (b e : Int) : Request :=
  { method := "GET"
    url := url
    headers :=
      [("Range", "bytes=" ++ toString b ++ "-" ++ toString e),
       ("Accept-Encoding", "identity")] }

/-- Response handling of `Layer.fetch`: 200 returns the body; 206 parses the
`Content-Type` and rejects parse failures and `multipart/*` media types,
otherwise returns the body; any other status is an error. -/
def handleFetchResponse (res : Response) : Except FetchError (List Nat) :=
  if res.statusCode = 200 then
    .ok res.body
  else if res.statusCode = 206 then
    match parseMediaType (headerGet res.headers "Content-Type") with
    | .error _ => .error (.invalidMediaType (headerGet res.headers "Content-Type"))
    | .ok mediaType =>
      if strHasPrefix mediaType "multipart/" then
        .error .multipartNotSupported
      else
        .ok res.body
  else
    .error (.unexpectedStatus res.statusCode)

/-- Issue the ranged GET: `Layer.fetch` sends the request through the transport and handle the
response. -/
def Layer.fetch (l : Layer) (rt : Transport) (b e : Int) : Except FetchError (List Nat) :=
  handleFetchResponse (rt (mkFetchRequest l.url b e))

/-- Errors surfaced by `io.ReadFull` inside `ReadAt`, or a fetch error. -/
inductive ReadError where
  | fetchFailed (e : FetchError)
  /-- `io.EOF`: no byte was available. -/
  | eof
  /-- `io.ErrUnexpectedEOF`: some but fewer than `len(p)` bytes were available. -/
  | unexpectedEOF
  deriving DecidableEq, Repr

/-- Models `io.ReadFull(rc, p)` on a body that can deliver `body` before EOF:
returns the bytes written into `p`, the count, and the error (`nil`,
`io.EOF`, or `io.ErrUnexpectedEOF`). -/
def readFull (body : List Nat) (plen : Nat) : List Nat × Nat × Option ReadError :=
  let n := min plen body.length
  (body.take plen, n,
    if n = plen then none
    else if n = 0 then some .eof
    else some .unexpectedEOF)

/-- The non-guarded path of `ReadAt`: fetch `[offset, offset+len(p)-1]` and
`io.ReadFull` the body into the buffer. -/
def fetchAndFill (l : Layer) (rt : Transport) (plen : Nat) (offset : Int) :
    List Nat × Nat × Option ReadError :=
  match l.fetch rt offset (offset + (plen : Int) - 1) with
  | .error e => ([], 0, some (.fetchFailed e))
  | .ok body => readFull body plen

/-- Models `Layer.ReadAt`: the guard `len(p) == 0 || offset > l.size` returns
`(0, nil)`; otherwise the ranged fetch runs and the body is read in full.
The result is `(bytes written into p, count, error)`. -/
def Layer.ReadAt (l : Layer) (rt : Transport) (plen : Nat) (offset : Int) :
    List Nat × Nat × Option ReadError :=
  if plen = 0 ∨ offset > l.size then ([], 0, none)
  else fetchAndFill l rt plen offset

/-- The probe request built by `redirect`: a GET on the blob URL with
`Range: bytes=0-1`. -/
def mkRedirectRequest (blobURL : String) : Request :=
  { method := "GET", url := blobURL, headers := [("Range", "bytes=0-1")] }

/-- Models `redirect`: probe the canonical blob URL; 2xx keeps the canonical URL,
3xx with a non-empty `Location` header yields that target, anything else is an
error carrying the status code. -/
def redirect (rt : Transport) (blobURL : String) : Except RedirectError String :=
  let res := rt (mkRedirectRequest blobURL)
  if res.statusCode / 100 = 2 then
    .ok blobURL
  else if headerGet res.headers "Location" ≠ "" ∧ res.statusCode / 100 = 3 then
    .ok (headerGet res.headers "Location")
  else
    .error (.statusError res.statusCode)

/-- A `(digest, size)` layer descriptor as delivered by the manifest
(`layer.Digest()` / `layer.Size()` of the external image). -/
structure LayerDescriptor where
  digest : String
  size : Int
  deriving DecidableEq, Repr

/-- Models `path.Join(repoURL.Path, "blobs", digest)` on the already slash-terminated
repository URL: the canonical blob URL for a digest. -/
def blobURLFor (repoURL : String) (digest : String) : String :=
  repoURL ++ "blobs/" ++ digest

/-- Models `Remote.Layers`: walk the manifest's descriptors bottom-to-top, resolve
each blob URL through `redirect`, and either return the full resolved list or
fail on the first error (`return nil, err`). -/
def layersLoop (rt : Transport) (repoURL : String) :
    List LayerDescriptor → Except RedirectError (List Layer)
  | [] => .ok []
  | d :: rest =>
    match redirect rt (blobURLFor repoURL d.digest) with
    | .error e => .error e
    | .ok redirectedURL =>
      match layersLoop rt repoURL rest with
      | .error e => .error e
      | .ok ls =>
        .ok ({ digest := d.digest
               url := redirectedURL
               blobURL := blobURLFor repoURL d.digest
               size := d.size } :: ls)

/-! ## cmd/ecrane/main.go

The per-layer goroutine body (section reader + `estargz.Open` + `Lookup` +
`OpenFile` + `io.ReadAll`) talks to the external estargz archive reader, so its
observable effect is taken as an input: each layer either finds a payload and
stores it (`result.Store(digest, b)` then `return nil`), finds nothing
(`return nil` without a store), or returns an error.  Workers run concurrently;
a `completion order` (the order in which goroutine bodies return) is an input
and determines both which stores happened first and which error the errgroup
reports. -/

/-- The observable outcome of one per-layer lookup goroutine. -/
inductive WorkerResult where
  /-- `esgz.Lookup` hit: the payload stored under the layer's digest. -/
  | found (payload : List Nat)
  /-- `esgz.Lookup` miss: nothing stored, `nil` returned. -/
  | notFound
  /-- `estargz.Open` / `OpenFile` / `io.ReadAll` error: the worker returns it. -/
  | failed (msg : String)
  deriving DecidableEq, Repr

/-- Models `sync.Map.Store`: overwrite the value under the key, keeping first-insertion
position (irrelevant here; only `Load` observes the map). -/
def mapStore (m : List (String × List Nat)) (d : String) (b : List Nat) :
    List (String × List Nat) :=
  match m with
  | [] => [(d, b)]
  | (k, v) :: rest => if k = d then (d, b) :: rest else (k, v) :: mapStore rest d b

/-- Models `sync.Map.Load`. -/
def mapLoad (m : List (String × List Nat)) (d : String) : Option (List Nat) :=
  match m with
  | [] => none
  | (k, v) :: rest => if k = d then some v else mapLoad rest d

/-- The effect of worker `i` finishing on the shared result map. -/
def storeStep (layers : List (String × WorkerResult)) (m : List (String × List Nat))
    (i : Nat) : List (String × List Nat) :=
  match layers[i]? with
  | some (d, .found b) => mapStore m d b
  | _ => m

/-- The result map after all workers finished, stores applied in completion
order. -/
def storeMap (layers : List (String × WorkerResult)) (order : List Nat) :
    List (String × List Nat) :=
  order.foldl (storeStep layers) []

/-- Models `errgroup.Group.Wait`: the error of the first worker (in completion order)
whose function returned a non-nil error, or `none` when all returned nil. -/
def waitError (layers : List (String × WorkerResult)) : List Nat → Option String
  | [] => none
  | i :: rest =>
    match layers[i]? with
    | some (_, .failed e) => some e
    | _ => waitError layers rest

/-- The print loop of `run`: `for i := len(layers)-1; i >= 0; i--` loads
`layers[i].Digest()` from the result map and prints the payload when present
(there is no `break`: every hit is printed). -/
def printLoop (layers : List (String × WorkerResult)) (m : List (String × List Nat)) :
    List (List Nat) :=
  (layers.map Prod.fst).reverse.filterMap (fun d => mapLoad m d)

/-- Models `run` after `r.Layers` succeeded: fan out one worker per layer, `g.Wait()`,
return the first error if any (printing nothing), otherwise run the print loop
and return nil.  The returned list is the sequence of payloads printed. -/
def run (layers : List (String × WorkerResult)) (order : List Nat) :
    Except String (List (List Nat)) :=
  match waitError layers order with
  | some e => .error e
  | none => .ok (printLoop layers (storeMap layers order))

/-- The payload a worker outcome contributes to the result map. -/
def payloadOf : WorkerResult → Option (List Nat)
  | .found b => some b
  | _ => none

/-- Whether worker `i`'s function returns a non-nil error. -/
def failedAt (layers : List (String × WorkerResult)) (i : Nat) : Bool :=
  match layers[i]? with
  | some (_, .failed _) => true
  | _ => false

/-- Whether a worker outcome is an error return. -/
def isFailure : WorkerResult → Bool
  | .failed _ => true
  | _ => false

/-- The canonical single-part 206 answer of a range-capable server storing
`content`: the inclusive slice `[b, e]` clamped to the content length. -/
def range206Response (content : List Nat) (b e : Int) : Response :=
  { statusCode := 206
    headers := [("Content-Type", "application/octet-stream")]
    body := (content.drop b.toNat).take (e - b + 1).toNat }

/-! ## Theorems -/

/-- **C2** (counterexample): the guard of `ReadAt` is `offset > l.size`, not
`offset >= l.size`.  At `offset = size = 5` with a one-byte buffer the call is
not a no-op: the ranged fetch runs (here against a server answering 416) and
the error is surfaced, contradicting "returns 0 bytes read and no error, and
performs no network fetch". -/
theorem C2_counterexample :
    Layer.ReadAt { digest := "d", url := "u", blobURL := "b", size := 5 }
        (fun _ => { statusCode := 416, headers := [], body := [] }) 1 5
      = ([], 0, some (.fetchFailed (.unexpectedStatus 416))) ∧
    some (ReadError.fetchFailed (.unexpectedStatus 416)) ≠ (none : Option ReadError) := by
  constructor
  · rfl
  · decide

/-- **C2** (amended): for every call to `ReadAt` with an empty destination
buffer, or with offset strictly greater than the layer's declared size,
`ReadAt` returns 0 bytes read and no error, uniformly in the transport (no
network fetch is performed). -/
theorem C2_noop_guard (l : Layer) (rt : Transport) (plen : Nat) (offset : Int)
    (h : plen = 0 ∨ offset > l.size) :
    Layer.ReadAt l rt plen offset = ([], 0, none) := by
  unfold Layer.ReadAt
  rw [if_pos h]

/-- Witness for `C2_noop_guard` at `plen = 3`, `offset = 6 > size = 5`. -/
theorem C2_noop_guard_witness :
    Layer.ReadAt { digest := "d", url := "u", blobURL := "b", size := 5 }
        (fun _ => { statusCode := 200, headers := [], body := [0] }) 3 6
      = ([], 0, none) :=
  C2_noop_guard { digest := "d", url := "u", blobURL := "b", size := 5 }
    (fun _ => { statusCode := 200, headers := [], body := [0] }) 3 6
    (Or.inr (by decide))

/-- **C4**: redirect resolution of a canonical blob URL satisfies exactly three
cases: any 2xx probe status yields the canonical URL; a 3xx status with a
non-empty `Location` header yields that target; any other outcome (including
3xx without a `Location`) fails with an error carrying the observed status. -/
theorem C4_redirect_cases (rt : Transport) (u : String) :
    ((rt (mkRedirectRequest u)).statusCode / 100 = 2 →
      redirect rt u = .ok u) ∧
    (headerGet (rt (mkRedirectRequest u)).headers "Location" ≠ "" ∧
        (rt (mkRedirectRequest u)).statusCode / 100 = 3 →
      redirect rt u = .ok (headerGet (rt (mkRedirectRequest u)).headers "Location")) ∧
    (¬ (rt (mkRedirectRequest u)).statusCode / 100 = 2 ∧
     ¬ (headerGet (rt (mkRedirectRequest u)).headers "Location" ≠ "" ∧
        (rt (mkRedirectRequest u)).statusCode / 100 = 3) →
      redirect rt u = .error (.statusError (rt (mkRedirectRequest u)).statusCode)) := by
  refine ⟨fun h2 => ?_, fun h3 => ?_, fun hno => ?_⟩
  · unfold redirect
    rw [if_pos h2]
  · unfold redirect
    have h2 : ¬ (rt (mkRedirectRequest u)).statusCode / 100 = 2 := by
      have := h3.2
      omega
    rw [if_neg h2, if_pos h3]
  · unfold redirect
    rw [if_neg hno.1, if_neg hno.2]

/-- Witness for `C4_redirect_cases`: a 302 probe answer with a `Location`
header resolves to that target. -/
theorem C4_redirect_cases_witness :
    redirect
        (fun _ => { statusCode := 302,
                    headers := [("Location", "https://cdn.example/blob")], body := [] })
        "https://registry.example/v2/repo/blobs/sha256:d"
      = .ok "https://cdn.example/blob" := by
  have h := (C4_redirect_cases
      (fun _ => { statusCode := 302,
                  headers := [("Location", "https://cdn.example/blob")], body := [] })
      "https://registry.example/v2/repo/blobs/sha256:d").2.1 ⟨by decide, by decide⟩
  exact h

/-- **C8**: every non-no-op `ReadAt` issues a GET whose `Range` header is the
inclusive `bytes=offset-(offset+len(p)-1)` and whose `Accept-Encoding` header
is `identity`; the read depends on the transport only through its answer to
exactly that request; and the redirect probe is a GET with `Range: bytes=0-1`. -/
theorem C8_request_headers (l : Layer) (rt rt2 : Transport) (plen : Nat) (offset : Int)
    (u : String) (hp : plen ≠ 0) (ho : ¬ offset > l.size) :
    (mkFetchRequest l.url offset (offset + (plen : Int) - 1)).method = "GET" ∧
    headerGet (mkFetchRequest l.url offset (offset + (plen : Int) - 1)).headers "Range"
      = "bytes=" ++ toString offset ++ "-" ++ toString (offset + (plen : Int) - 1) ∧
    headerGet (mkFetchRequest l.url offset (offset + (plen : Int) - 1)).headers
        "Accept-Encoding" = "identity" ∧
    (rt (mkFetchRequest l.url offset (offset + (plen : Int) - 1))
        = rt2 (mkFetchRequest l.url offset (offset + (plen : Int) - 1)) →
      Layer.ReadAt l rt plen offset = Layer.ReadAt l rt2 plen offset) ∧
    (mkRedirectRequest u).method = "GET" ∧
    headerGet (mkRedirectRequest u).headers "Range" = "bytes=0-1" := by
  have hguard : ¬ (plen = 0 ∨ offset > l.size) := by
    push_neg
    exact ⟨hp, not_lt.mp ho⟩
  refine ⟨rfl, rfl, rfl, fun hsame => ?_, rfl, rfl⟩
  unfold Layer.ReadAt
  rw [if_neg hguard, if_neg hguard]
  unfold fetchAndFill Layer.fetch
  rw [hsame]

/-- Witness for `C8_request_headers` at `offset = 1`, `len(p) = 2`: the Range
header of the issued request is `bytes=1-2`. -/
theorem C8_request_headers_witness :
    headerGet (mkFetchRequest "u" 1 (1 + ((2 : Nat) : Int) - 1)).headers "Range"
      = "bytes=" ++ toString (1 : Int) ++ "-" ++ toString (1 + ((2 : Nat) : Int) - 1) :=
  (C8_request_headers { digest := "d", url := "u", blobURL := "b", size := 5 }
    (fun _ => { statusCode := 200, headers := [], body := [] })
    (fun _ => { statusCode := 200, headers := [], body := [] }) 2 1 "v"
    (by decide) (by decide)).2.1

/-- **C9**: with a non-empty buffer and a negative offset the no-op guard of
`ReadAt` does not apply (it checks only `len(p) == 0` and `offset > size`):
the call proceeds to the ranged fetch whose beginning bound is the negative
offset — the read consults the transport exactly at that request, and e.g. a
server answering 500 makes the call surface an unexpected-status error rather
than returning zero bytes and no error. -/
theorem C9_negative_offset (l : Layer) (rt rt2 : Transport) (plen : Nat) (offset : Int)
    (hp : plen ≠ 0) (ho : offset < 0) (hs : 0 ≤ l.size) :
    Layer.ReadAt l rt plen offset = fetchAndFill l rt plen offset ∧
    (rt (mkFetchRequest l.url offset (offset + (plen : Int) - 1))
        = rt2 (mkFetchRequest l.url offset (offset + (plen : Int) - 1)) →
      Layer.ReadAt l rt plen offset = Layer.ReadAt l rt2 plen offset) ∧
    Layer.ReadAt l (fun _ => { statusCode := 500, headers := [], body := [] }) plen offset
      = ([], 0, some (.fetchFailed (.unexpectedStatus 500))) := by
  have hguard : ¬ (plen = 0 ∨ offset > l.size) := by
    push_neg
    constructor
    · exact hp
    · omega
  refine ⟨?_, fun hsame => ?_, ?_⟩
  · unfold Layer.ReadAt
    rw [if_neg hguard]
  · unfold Layer.ReadAt
    rw [if_neg hguard, if_neg hguard]
    unfold fetchAndFill Layer.fetch
    rw [hsame]
  · unfold Layer.ReadAt
    rw [if_neg hguard]
    rfl

/-- Witness for `C9_negative_offset` at `offset = -3`, `len(p) = 2`,
`size = 5`. -/
theorem C9_negative_offset_witness :
    Layer.ReadAt { digest := "d", url := "u", blobURL := "b", size := 5 }
        (fun _ => { statusCode := 500, headers := [], body := [] }) 2 (-3)
      = ([], 0, some (.fetchFailed (.unexpectedStatus 500))) :=
  (C9_negative_offset { digest := "d", url := "u", blobURL := "b", size := 5 }
    (fun _ => { statusCode := 500, headers := [], body := [] })
    (fun _ => { statusCode := 500, headers := [], body := [] }) 2 (-3)
    (by decide) (by decide) (by decide)).2.2

/-- **C5**: if any descriptor's redirect resolution fails, `Remote.Layers`
returns an error and no layer list at all — a partial list of already-resolved
layers is never returned. -/
theorem C5_layers_fail_fast (rt : Transport) (repoURL : String)
    (descs : List LayerDescriptor)
    (h : ∃ d ∈ descs, ∃ e, redirect rt (blobURLFor repoURL d.digest) = .error e) :
    ∃ e, layersLoop rt repoURL descs = .error e := by
  induction descs with
  | nil => simp at h
  | cons d rest ih =>
    cases hred : redirect rt (blobURLFor repoURL d.digest) with
    | error e =>
      refine ⟨e, ?_⟩
      unfold layersLoop
      rw [hred]
    | ok redirectedURL =>
      obtain ⟨d', hd', e', he'⟩ := h
      rcases List.mem_cons.mp hd' with rfl | hmem
      · rw [hred] at he'
        exact absurd he' (by simp)
      · obtain ⟨e2, h2⟩ := ih ⟨d', hmem, e', he'⟩
        refine ⟨e2, ?_⟩
        unfold layersLoop
        rw [hred, h2]

/-- Witness for `C5_layers_fail_fast`: a registry answering 404 on the probe
makes `Layers` fail. -/
theorem C5_layers_fail_fast_witness :
    ∃ e, layersLoop (fun _ => { statusCode := 404, headers := [], body := [] })
        "https://r.example/v2/repo/" [{ digest := "sha256:a", size := 3 }] = .error e := by
  apply C5_layers_fail_fast
  exact ⟨{ digest := "sha256:a", size := 3 }, by simp, ⟨.statusError 404, rfl⟩⟩

/-- **C6**: a 206 response whose parsed media type is `multipart/*` makes the
range read fail with the unsupported-response error instead of reading the
body; a single-part 206 (parsed media type not `multipart/*`) is read
directly. -/
theorem C6_multipart_rejected (l : Layer) (rt : Transport) (b e : Int)
    (h206 : (rt (mkFetchRequest l.url b e)).statusCode = 206) :
    ∀ mt, parseMediaType (headerGet (rt (mkFetchRequest l.url b e)).headers "Content-Type")
        = .ok mt →
      (strHasPrefix mt "multipart/" = true →
        l.fetch rt b e = .error .multipartNotSupported) ∧
      (strHasPrefix mt "multipart/" = false →
        l.fetch rt b e = .ok (rt (mkFetchRequest l.url b e)).body) := by
  intro mt hmt
  have h200 : ¬ (rt (mkFetchRequest l.url b e)).statusCode = 200 := by omega
  constructor <;> intro hsw <;>
    · unfold Layer.fetch handleFetchResponse
      rw [if_neg h200, if_pos h206, hmt]
      simp [hsw]

/-- Witness for `C6_multipart_rejected`: `Content-Type:
multipart/byteranges; boundary=B` on a 206 answer is rejected. -/
theorem C6_multipart_rejected_witness :
    Layer.fetch { digest := "d", url := "u", blobURL := "b", size := 5 }
        (fun _ => { statusCode := 206,
                    headers := [("Content-Type", "multipart/byteranges; boundary=B")],
                    body := [7] }) 0 4
      = .error .multipartNotSupported :=
  ((C6_multipart_rejected { digest := "d", url := "u", blobURL := "b", size := 5 }
      (fun _ => { statusCode := 206,
                  headers := [("Content-Type", "multipart/byteranges; boundary=B")],
                  body := [7] }) 0 4 rfl) "multipart/byteranges" (by decide)).1 (by decide)

/-- **C10**: a 206 response whose `Content-Type` header is absent (for Go's
`Header.Get`, the empty string — which `mime.ParseMediaType` rejects) or not a
parsable media type makes the range read fail with the invalid-media-type
error rather than reading the body. -/
theorem C10_unparsable_content_type (l : Layer) (rt : Transport) (b e : Int) (msg : String)
    (h206 : (rt (mkFetchRequest l.url b e)).statusCode = 206)
    (hbad : parseMediaType (headerGet (rt (mkFetchRequest l.url b e)).headers "Content-Type")
      = .error msg) :
    l.fetch rt b e
      = .error (.invalidMediaType
          (headerGet (rt (mkFetchRequest l.url b e)).headers "Content-Type")) ∧
    parseMediaType "" = .error "mime: no media type" := by
  have h200 : ¬ (rt (mkFetchRequest l.url b e)).statusCode = 200 := by omega
  constructor
  · unfold Layer.fetch handleFetchResponse
    rw [if_neg h200, if_pos h206, hbad]
  · rfl

/-- Witness for `C10_unparsable_content_type`: a 206 answer carrying no
`Content-Type` header at all is rejected. -/
theorem C10_unparsable_content_type_witness :
    Layer.fetch { digest := "d", url := "u", blobURL := "b", size := 5 }
        (fun _ => { statusCode := 206, headers := [], body := [7] }) 0 4
      = .error (.invalidMediaType "") := by
  have h := (C10_unparsable_content_type
      { digest := "d", url := "u", blobURL := "b", size := 5 }
      (fun _ => { statusCode := 206, headers := [], body := [7] }) 0 4
      "mime: no media type" rfl (by decide)).1
  exact h

/-- A single-part 206 answer of a range-capable server is accepted by the
response handling of `fetch`, and delivers the requested clamped slice. -/
lemma handleFetch_range206 (c : List Nat) (b e : Int) :
    handleFetchResponse (range206Response c b e)
      = .ok ((c.drop b.toNat).take (e - b + 1).toNat) := rfl

/-- **C3** (counterexample): the claimed "no error" fails when the buffer
reaches past the end of the layer.  Content `[10, 20]` (size 2), `offset = 1`,
`len(p) = 2`: the 206 server returns the single remaining byte, and
`io.ReadFull` reports `io.ErrUnexpectedEOF` alongside the 1 byte read — not
`(1, nil)`. -/
theorem C3_counterexample :
    Layer.ReadAt { digest := "d", url := "u", blobURL := "b", size := 2 }
        (fun _ => range206Response [10, 20] 1 2) 2 1
      = ([20], 1, some .unexpectedEOF) ∧
    (([20], 1, some ReadError.unexpectedEOF) : List Nat × Nat × Option ReadError)
      ≠ ([20], 1, none) := by
  exact ⟨by decide, by decide⟩

/-- **C3** (amended): for every non-empty read with `0 ≤ offset < size`
against a server answering the range request with a single-part 206 carrying
the clamped slice, `ReadAt` reads exactly `min(len(p), size-offset)` bytes and
they equal the corresponding slice of the content; the error is `nil` when
`len(p) ≤ size-offset` and `io.ErrUnexpectedEOF` otherwise. -/
theorem C3_range_read (l : Layer) (rt : Transport) (content : List Nat)
    (plen : Nat) (offset : Int)
    (hsize : l.size = (content.length : Int)) (hp : plen ≠ 0) (h0 : 0 ≤ offset)
    (hlt : offset < l.size)
    (hsrv : rt (mkFetchRequest l.url offset (offset + (plen : Int) - 1))
      = range206Response content offset (offset + (plen : Int) - 1)) :
    Layer.ReadAt l rt plen offset
      = ((content.drop offset.toNat).take plen,
         min plen (content.length - offset.toNat),
         if plen ≤ content.length - offset.toNat then none
         else some .unexpectedEOF) := by
  have hofflt : offset.toNat < content.length := by omega
  have hguard : ¬ (plen = 0 ∨ offset > l.size) := by
    push_neg
    exact ⟨hp, le_of_lt hlt⟩
  have harg : ((offset + (plen : Int) - 1) - offset + 1).toNat = plen := by omega
  unfold Layer.ReadAt fetchAndFill Layer.fetch
  rw [if_neg hguard, hsrv, handleFetch_range206, harg]
  have hlen : ((content.drop offset.toNat).take plen).length
      = min plen (content.length - offset.toNat) := by
    simp [List.length_take, List.length_drop]
  simp only [readFull, Prod.mk.injEq]
  refine ⟨?_, ?_, ?_⟩
  · rw [List.take_take, min_self]
  · rw [hlen, ← min_assoc, min_self]
  · rw [hlen]
    by_cases hc : plen ≤ content.length - offset.toNat
    · rw [Nat.min_eq_left hc]
      simp [hc]
    · have hm : min plen (content.length - offset.toNat)
          = content.length - offset.toNat :=
        Nat.min_eq_right (by omega)
      rw [hm, if_neg (by omega), if_neg (by omega), if_neg hc]

/-- Witness for `C3_range_read`: content `[10, 20, 30]`, `offset = 1`,
`len(p) = 2` — the read returns `[20, 30]`, 2 bytes, no error. -/
theorem C3_range_read_witness :
    Layer.ReadAt { digest := "d", url := "u", blobURL := "b", size := 3 }
        (fun _ => range206Response [10, 20, 30] 1 (1 + ((2 : Nat) : Int) - 1)) 2 1
      = ([20, 30], 2, none) := by
  have h := C3_range_read { digest := "d", url := "u", blobURL := "b", size := 3 }
      (fun _ => range206Response [10, 20, 30] 1 (1 + ((2 : Nat) : Int) - 1))
      [10, 20, 30] 2 1 (by decide) (by decide) (by decide) (by decide) rfl
  rw [h]
  decide

/-! ### Helper lemmas about the shared result map and the errgroup wait -/

/-- Loading a key right after storing it yields the stored payload. -/
lemma mapLoad_mapStore_self (m : List (String × List Nat)) (d : String) (b : List Nat) :
    mapLoad (mapStore m d b) d = some b := by
  induction m with
  | nil => simp [mapStore, mapLoad]
  | cons p rest ih =>
    obtain ⟨k, v⟩ := p
    by_cases hk : k = d
    · simp [mapStore, mapLoad, hk]
    · simp [mapStore, mapLoad, hk, ih]

/-- Storing under a different key does not change a load. -/
lemma mapLoad_mapStore_other (m : List (String × List Nat)) (d k : String) (b : List Nat)
    (hne : k ≠ d) :
    mapLoad (mapStore m k b) d = mapLoad m d := by
  induction m with
  | nil => simp [mapStore, mapLoad, hne]
  | cons p rest ih =>
    obtain ⟨k', v⟩ := p
    by_cases hk : k' = k
    · subst hk
      simp [mapStore, mapLoad, hne]
    · by_cases hd : k' = d
      · simp [mapStore, mapLoad, hk, hd, Ne.symm hne]
      · simp [mapStore, mapLoad, hk, hd, ih]

/-- When no worker in the completion order failed, `Wait` returns nil. -/
lemma waitError_none (layers : List (String × WorkerResult)) (order : List Nat)
    (h : ∀ j ∈ order, failedAt layers j = false) :
    waitError layers order = none := by
  induction order with
  | nil => rfl
  | cons j rest ih =>
    have hj := h j (List.mem_cons_self j rest)
    have hrest := ih (fun x hx => h x (List.mem_cons_of_mem _ hx))
    unfold waitError
    cases hl : layers[j]? with
    | none => exact hrest
    | some p =>
      obtain ⟨d, r⟩ := p
      cases r with
      | found b => exact hrest
      | notFound => exact hrest
      | failed e =>
        rw [failedAt, hl] at hj
        simp at hj

/-- If position `k` of the completion order is the first failing worker,
`Wait` returns exactly that worker's error. -/
lemma waitError_first (layers : List (String × WorkerResult)) :
    ∀ (order : List Nat) (k i : Nat) (d e : String),
      order[k]? = some i →
      layers[i]? = some (d, .failed e) →
      (∀ j ∈ order.take k, failedAt layers j = false) →
      waitError layers order = some e := by
  intro order
  induction order with
  | nil =>
    intro k i d e hk
    simp at hk
  | cons o rest ih =>
    intro k i d e hk hi hpre
    cases k with
    | zero =>
      rw [List.getElem?_cons_zero] at hk
      injection hk with hk
      subst hk
      unfold waitError
      rw [hi]
    | succ k2 =>
      have ho : failedAt layers o = false := by
        apply hpre
        rw [List.take_succ_cons]
        exact List.mem_cons_self o _
      have hk2 : rest[k2]? = some i := by simpa using hk
      have hpre2 : ∀ j ∈ rest.take k2, failedAt layers j = false := by
        intro j hj
        apply hpre
        rw [List.take_succ_cons]
        exact List.mem_cons_of_mem _ hj
      unfold waitError
      cases hl : layers[o]? with
      | none => exact ih k2 i d e hk2 hi hpre2
      | some p =>
        obtain ⟨d2, r⟩ := p
        cases r with
        | found b => exact ih k2 i d e hk2 hi hpre2
        | notFound => exact ih k2 i d e hk2 hi hpre2
        | failed e2 =>
          exfalso
          rw [failedAt, hl] at ho
          simp at ho

/-- If no layer stores under digest `d`, folding the completion order keeps
`d` absent from the result map. -/
lemma storeMap_none (layers : List (String × WorkerResult)) (d : String)
    (hno : ∀ (j : Nat) (p : String × WorkerResult),
      layers[j]? = some p → p.1 = d → payloadOf p.2 = none) :
    ∀ (order : List Nat) (m : List (String × List Nat)),
      mapLoad m d = none →
      mapLoad (order.foldl (storeStep layers) m) d = none := by
  intro order
  induction order with
  | nil =>
    intro m hm
    exact hm
  | cons j rest ih =>
    intro m hm
    rw [List.foldl_cons]
    apply ih
    unfold storeStep
    cases hl : layers[j]? with
    | none => exact hm
    | some p =>
      obtain ⟨k, r⟩ := p
      cases r with
      | found b =>
        have hk : k ≠ d := by
          intro hkd
          have := hno j (k, WorkerResult.found b) hl hkd
          simp [payloadOf] at this
        rw [mapLoad_mapStore_other m d k b hk]
        exact hm
      | notFound => exact hm
      | failed e => exact hm

/-- If every layer with digest `d` stores payload `b` and some worker in the
completion order does store it, folding the completion order leaves `d ↦ b`
in the result map — in any completion order. -/
lemma storeMap_found (layers : List (String × WorkerResult)) (d : String) (b : List Nat)
    (i : Nat)
    (honly : ∀ (j : Nat) (p : String × WorkerResult),
      layers[j]? = some p → p.1 = d → p.2 = WorkerResult.found b) :
    ∀ (order : List Nat) (m : List (String × List Nat)),
      ((i ∈ order ∧ layers[i]? = some (d, .found b)) ∨ mapLoad m d = some b) →
      mapLoad (order.foldl (storeStep layers) m) d = some b := by
  intro order
  induction order with
  | nil =>
    intro m h
    rcases h with ⟨hmem, _⟩ | hm
    · simp at hmem
    · exact hm
  | cons j rest ih =>
    intro m h
    rw [List.foldl_cons]
    rcases h with ⟨hmem, hi⟩ | hm
    · rcases List.mem_cons.mp hmem with heq | hmem2
      · subst heq
        apply ih
        right
        unfold storeStep
        rw [hi]
        exact mapLoad_mapStore_self m d b
      · exact ih _ (Or.inl ⟨hmem2, hi⟩)
    · apply ih
      right
      unfold storeStep
      cases hl : layers[j]? with
      | none => exact hm
      | some p =>
        obtain ⟨k, r⟩ := p
        cases r with
        | found b2 =>
          by_cases hk : k = d
          · have h2 := honly j (k, WorkerResult.found b2) hl hk
            simp only at h2
            injection h2 with hb
            subst hk
            rw [hb]
            exact mapLoad_mapStore_self m k b
          · rw [mapLoad_mapStore_other m d k b2 hk]
            exact hm
        | notFound => exact hm
        | failed e => exact hm

/-- With pairwise-distinct digests, two indexed layers sharing a digest are
the same index. -/
lemma digest_index_inj (layers : List (String × WorkerResult))
    (hnd : (layers.map Prod.fst).Nodup) {i j : Nat} {p q : String × WorkerResult}
    (hi : layers[i]? = some p) (hj : layers[j]? = some q) (hpq : p.1 = q.1) :
    i = j := by
  have hi2 : (layers.map Prod.fst)[i]? = some p.1 := by
    rw [List.getElem?_map, hi]
    rfl
  have hj2 : (layers.map Prod.fst)[j]? = some q.1 := by
    rw [List.getElem?_map, hj]
    rfl
  have hilen : i < (layers.map Prod.fst).length := by
    rw [List.length_map]
    obtain ⟨h, _⟩ := List.getElem?_eq_some_iff.mp hi
    exact h
  apply List.getElem?_inj hilen hnd
  rw [hi2, hj2, hpq]

/-- With pairwise-distinct digests, full coverage of the indices by the
completion order, and any completion order: the result map holds exactly each
layer's own found payload under its digest. -/
lemma storeMap_eval (layers : List (String × WorkerResult)) (order : List Nat)
    (hnd : (layers.map Prod.fst).Nodup)
    (hcov : ∀ i, i < layers.length → i ∈ order)
    {i : Nat} {p : String × WorkerResult} (hi : layers[i]? = some p) :
    mapLoad (storeMap layers order) p.1 = payloadOf p.2 := by
  obtain ⟨d, r⟩ := p
  have hlt : i < layers.length := by
    obtain ⟨h, _⟩ := List.getElem?_eq_some_iff.mp hi
    exact h
  cases r with
  | found b =>
    have honly : ∀ (j : Nat) (q : String × WorkerResult),
        layers[j]? = some q → q.1 = d → q.2 = WorkerResult.found b := by
      intro j q hq hqd
      have hij : i = j := digest_index_inj layers hnd hi hq hqd.symm
      subst hij
      rw [hi] at hq
      injection hq with hq2
      rw [← hq2]
    show mapLoad (storeMap layers order) d = payloadOf (WorkerResult.found b)
    unfold storeMap
    exact storeMap_found layers d b i honly order [] (Or.inl ⟨hcov i hlt, hi⟩)
  | notFound =>
    have hno : ∀ (j : Nat) (q : String × WorkerResult),
        layers[j]? = some q → q.1 = d → payloadOf q.2 = none := by
      intro j q hq hqd
      have hij : i = j := digest_index_inj layers hnd hi hq hqd.symm
      subst hij
      rw [hi] at hq
      injection hq with hq2
      rw [← hq2]
      rfl
    unfold storeMap
    exact storeMap_none layers d hno order [] rfl
  | failed e =>
    have hno : ∀ (j : Nat) (q : String × WorkerResult),
        layers[j]? = some q → q.1 = d → payloadOf q.2 = none := by
      intro j q hq hqd
      have hij : i = j := digest_index_inj layers hnd hi hq hqd.symm
      subst hij
      rw [hi] at hq
      injection hq with hq2
      rw [← hq2]
      rfl
    unfold storeMap
    exact storeMap_none layers d hno order [] rfl

/-- **C7**: if some per-layer worker fails, the run reports the first worker
error (first in completion order) as its result and prints no payload at all,
even when other layers already completed successfully. -/
theorem C7_first_error_reported (layers : List (String × WorkerResult)) (order : List Nat)
    (k i : Nat) (d e : String)
    (hk : order[k]? = some i)
    (hi : layers[i]? = some (d, .failed e))
    (hpre : ∀ j ∈ order.take k, failedAt layers j = false) :
    run layers order = .error e ∧ ∀ printed, run layers order ≠ .ok printed := by
  have hw := waitError_first layers order k i d e hk hi hpre
  constructor
  · unfold run
    rw [hw]
  · intro printed
    unfold run
    rw [hw]
    simp

/-- Witness for `C7_first_error_reported`: worker 2 completes first and
succeeds, then worker 1 fails — the run reports worker 1's error. -/
theorem C7_first_error_reported_witness :
    run [("d0", .found [1]), ("d1", .failed "boom"), ("d2", .found [2])] [2, 1, 0]
      = .error "boom" :=
  (C7_first_error_reported
    [("d0", .found [1]), ("d1", .failed "boom"), ("d2", .found [2])] [2, 1, 0]
    1 1 "d1" "boom" rfl rfl (by decide)).1

/-- **C1** (counterexample): the print loop has no `break`, so with the path
found in bottom layer `d0` and top layer `d2` the run prints *both* payloads
(topmost first), not only the topmost one; and when no layer records a
payload, the run returns plain success with no output instead of a notFound
outcome. -/
theorem C1_counterexample :
    run [("d0", .found [1]), ("d1", .notFound), ("d2", .found [2])] [0, 1, 2]
      = .ok [[2], [1]] ∧
    ((Except.ok [[2], [1]] : Except String (List (List Nat))) ≠ .ok [[2]]) ∧
    run [("d0", .notFound)] [0] = .ok [] := by
  exact ⟨by decide, by decide, by decide⟩

/-- **C1** (amended): after all concurrent per-layer lookups complete without
error, the program scans the ordered layer list from topmost (last index) to
bottommost (first index) and prints the payload of *every* digest present in
the result mapping, in that order — payloads recorded for lower layers are
printed after the topmost one, not suppressed; when no layer recorded a
payload, nothing is printed and the run still returns success (there is no
distinguished notFound outcome).  Holds for any completion order covering all
workers, with pairwise-distinct layer digests. -/
theorem C1_prints_every_found_layer (layers : List (String × WorkerResult))
    (order : List Nat)
    (hnd : (layers.map Prod.fst).Nodup)
    (hcov : ∀ i, i < layers.length → i ∈ order)
    (hok : ∀ p ∈ layers, isFailure p.2 = false) :
    run layers order = .ok (layers.reverse.filterMap (fun p => payloadOf p.2)) := by
  have hfa : ∀ j, failedAt layers j = false := by
    intro j
    unfold failedAt
    cases hl : layers[j]? with
    | none => rfl
    | some p =>
      obtain ⟨d, r⟩ := p
      cases r with
      | found b => rfl
      | notFound => rfl
      | failed e =>
        have hmem : (d, WorkerResult.failed e) ∈ layers :=
          List.mem_iff_getElem?.mpr ⟨j, hl⟩
        have hbad := hok _ hmem
        simp [isFailure] at hbad
  have hwait : waitError layers order = none :=
    waitError_none layers order (fun j _ => hfa j)
  unfold run
  rw [hwait]
  show (Except.ok (printLoop layers (storeMap layers order)) : Except String (List (List Nat)))
      = Except.ok (layers.reverse.filterMap (fun p => payloadOf p.2))
  congr 1
  unfold printLoop
  rw [← List.map_reverse, List.filterMap_map]
  apply List.filterMap_congr
  intro p hp
  have hp2 : p ∈ layers := List.mem_reverse.mp hp
  obtain ⟨i, hi⟩ := List.getElem?_of_mem hp2
  show mapLoad (storeMap layers order) p.1 = payloadOf p.2
  exact storeMap_eval layers order hnd hcov hi

/-- Witness for `C1_prints_every_found_layer`: layers `d0` (found `[1]`),
`d1` (miss), `d2` (found `[2]`), completion order `2, 0, 1` — both payloads
are printed, topmost first. -/
theorem C1_prints_every_found_layer_witness :
    run [("d0", .found [1]), ("d1", .notFound), ("d2", .found [2])] [2, 0, 1]
      = .ok [[2], [1]] := by
  have h := C1_prints_every_found_layer
      [("d0", .found [1]), ("d1", .notFound), ("d2", .found [2])] [2, 0, 1]
      (by decide) (by decide) (by decide)
  rw [h]
  decide

end StargzRegistry
